import Mathlib

/-!
Verification of the `toolable` dual-protocol command dispatcher.

This file shallowly embeds the Python modules `response.py`, `streaming.py`,
`session.py`, `sampling.py` and the relevant parts of `cli.py` as executable
Lean definitions, and proves (or refutes) the frozen specification claims
about them.  JSON values are modelled by the inductive type `Json`; Python
dictionaries are association lists in insertion order; Python generators are
modelled by explicit finite event lists (one-way streams) or step automata
(bidirectional sessions); raising is modelled with `Option`/`Except`.
-/

/-- A JSON value as manipulated by the Python code.  Numbers are modelled as
integers (the claims under study never need floats).  Objects are association
lists in insertion order, mirroring Python dict iteration order. -/
inductive Json where
  | null : Json
  | bool : Bool → Json
  | num : Int → Json
  | str : String → Json
  | arr : List Json → Json
  | obj : List (String × Json) → Json

namespace Json

/-- Python `dict.get(k)`: first binding for `k`, if any (keys are unique in a
real dict, so first-match equals dict semantics). -/
def dictGet (kvs : List (String × Json)) (k : String) : Option Json :=
  kvs.lookup k

/-- Python `dict.get(k, d)`. -/
def dictGetD (kvs : List (String × Json)) (k : String) (d : Json) : Json :=
  (dictGet kvs k).getD d

/-- Python truthiness of a JSON-shaped value. -/
def pyTruthy : Json → Bool
  | null => false
  | bool b => b
  | num n => n != 0
  | str s => s != ""
  | arr xs => !xs.isEmpty
  | obj kvs => !kvs.isEmpty

/-- Python `len(v)`, `none` when `len` raises `TypeError` (numbers, booleans,
`None`). -/
def pyLen : Json → Option Nat
  | str s => some s.length
  | arr xs => some xs.length
  | obj kvs => some kvs.length
  | _ => none

end Json

namespace Response

/-- `Response.success` from `response.py`. -/
def success (result : Json) : Json :=
  .obj [("status", Json.str "success"), ("result", result)]

/-- `Response.error` from `response.py`.  `if suggestion:` / `if context:`
use Python truthiness, so an empty suggestion or context is omitted. -/
def error (code message : String) (recoverable : Bool)
    (suggestion : Option String) (context : Option (List (String × Json))) : Json :=
  let base := [("code", Json.str code), ("message", Json.str message),
    ("recoverable", Json.bool recoverable)]
  let withSug :=
    match suggestion with
    | some s => if s ≠ "" then base ++ [("suggestion", Json.str s)] else base
    | none => base
  let withCtx :=
    match context with
    | some c => if !c.isEmpty then withSug ++ [("context", Json.obj c)] else withSug
    | none => withSug
  .obj [("status", Json.str "error"), ("error", Json.obj withCtx)]

/-- The auto-detection loop of `Response.partial`: length of the first
list-typed value of the result dict in insertion order, `0` if none. -/
def autoSucceeded : List (String × Json) → Nat
  | [] => 0
  | (_, Json.arr xs) :: _ => xs.length
  | _ :: rest => autoSucceeded rest

/-- The `succeeded_count` computation of `Response.partial`: the guard
`if result_key:` uses Python truthiness, so an empty-string key behaves like
`None`; `result.get(result_key, [])` defaults to the empty list; `len` of an
unsized value raises `TypeError`, modelled as `none`. -/
def succeededCountOpt (result : List (String × Json)) (result_key : Option String) : Option Nat :=
  match result_key with
  | some k =>
      if k ≠ "" then Json.pyLen (Json.dictGetD result k (Json.arr []))
      else some (autoSucceeded result)
  | none => some (autoSucceeded result)

/-- The `status` selection of `Response.partial`. -/
def partialStatus (succeeded_count failed_count : Nat) : String :=
  if failed_count = 0 then "success"
  else if succeeded_count = 0 then "error"
  else "partial"

/-- The envelope built by `Response.partial` once the succeeded count is
known; the `errors` key is appended only when `errors` is truthy. -/
def mkPartialEnv (result : List (String × Json)) (errors : List (List (String × Json)))
    (succeeded_count : Nat) : Json :=
  Json.obj
    ([("status", Json.str (partialStatus succeeded_count errors.length)),
      ("result", Json.obj result),
      ("summary", Json.obj [
        ("total", Json.num (succeeded_count + errors.length)),
        ("succeeded", Json.num succeeded_count),
        ("failed", Json.num errors.length),
        ("recoverable_failures", Json.num
          ((errors.filter
            (fun e => Json.pyTruthy (Json.dictGetD e "recoverable" (Json.bool false)))).length))])]
      ++ (if errors.isEmpty then [] else [("errors", Json.arr (errors.map Json.obj))]))

/-- `Response.partial` from `response.py` (named `partialResp` because the
Python name is a Lean keyword).  Error records are dicts.  Returns `none`
when the Python code would raise `TypeError`. -/
def partialResp (result : List (String × Json)) (errors : List (List (String × Json)))
    (result_key : Option String) : Option Json :=
  match succeededCountOpt result result_key with
  | none => none
  | some succeeded_count => some (mkPartialEnv result errors succeeded_count)

end Response

/-- The `status` field of an envelope. -/
def envStatus (j : Json) : Option Json :=
  match j with
  | .obj kvs => Json.dictGet kvs "status"
  | _ => none

/-- A field of the `summary` object of a partial envelope. -/
def envSummaryField (j : Json) (f : String) : Option Json :=
  match j with
  | .obj kvs =>
    match Json.dictGet kvs "summary" with
    | some (.obj s) => Json.dictGet s f
    | _ => none
  | _ => none

/-- A field of the `error` object of an error envelope. -/
def envErrorField (j : Json) (f : String) : Option Json :=
  match j with
  | .obj kvs =>
    match Json.dictGet kvs "error" with
    | some (.obj e) => Json.dictGet e f
    | _ => none
  | _ => none

example :
    Response.partialResp [("items", Json.arr [Json.num 1, Json.num 2])] [] none =
      some (Json.obj [("status", Json.str "success"),
        ("result", Json.obj [("items", Json.arr [Json.num 1, Json.num 2])]),
        ("summary", Json.obj [("total", Json.num 2), ("succeeded", Json.num 2),
          ("failed", Json.num 0), ("recoverable_failures", Json.num 0)])]) := by
  rfl

theorem envStatus_mkPartialEnv (result : List (String × Json))
    (errors : List (List (String × Json))) (sc : Nat) :
    envStatus (Response.mkPartialEnv result errors sc) =
      some (Json.str (Response.partialStatus sc errors.length)) := rfl

theorem envSucceeded_mkPartialEnv (result : List (String × Json))
    (errors : List (List (String × Json))) (sc : Nat) :
    envSummaryField (Response.mkPartialEnv result errors sc) "succeeded" =
      some (Json.num sc) := rfl

theorem envFailed_mkPartialEnv (result : List (String × Json))
    (errors : List (List (String × Json))) (sc : Nat) :
    envSummaryField (Response.mkPartialEnv result errors sc) "failed" =
      some (Json.num errors.length) := rfl

theorem envTotal_mkPartialEnv (result : List (String × Json))
    (errors : List (List (String × Json))) (sc : Nat) :
    envSummaryField (Response.mkPartialEnv result errors sc) "total" =
      some (Json.num (sc + errors.length)) := rfl

theorem partialStatus_cases (sc f : Nat) :
    (Response.partialStatus sc f = "error" ↔ sc = 0 ∧ f ≠ 0) ∧
    (Response.partialStatus sc f = "success" ↔ f = 0) ∧
    (Response.partialStatus sc f = "partial" ↔ sc ≠ 0 ∧ f ≠ 0) := by
  unfold Response.partialStatus
  rcases eq_or_ne f 0 with hf | hf
  · subst hf; simp
  · rw [if_neg hf]
    rcases eq_or_ne sc 0 with hs | hs
    · subst hs; simp [hf]
    · rw [if_neg hs]; simp [hs, hf]

/-- C1: for every result mapping, error-record list and result key passed to
`Response.partial` that return an envelope, the envelope's status is
`"error"` iff the computed succeeded count is `0` and the errors list is
non-empty, `"success"` iff the errors list is empty, `"partial"` otherwise,
and `summary.total` always equals `summary.succeeded + summary.failed`
(with `summary.failed` the number of error records). -/
theorem partial_status_invariant (result : List (String × Json))
    (errors : List (List (String × Json))) (result_key : Option String) (env : Json)
    (h : Response.partialResp result errors result_key = some env) :
    (envStatus env = some (Json.str "error") ↔
      envSummaryField env "succeeded" = some (Json.num 0) ∧ errors ≠ []) ∧
    (envStatus env = some (Json.str "success") ↔ errors = []) ∧
    (envStatus env = some (Json.str "partial") ↔
      envSummaryField env "succeeded" ≠ some (Json.num 0) ∧ errors ≠ []) ∧
    ∃ s f : Nat, envSummaryField env "succeeded" = some (Json.num s) ∧
      envSummaryField env "failed" = some (Json.num f) ∧
      envSummaryField env "total" = some (Json.num (s + f)) ∧ f = errors.length := by
  unfold Response.partialResp at h
  cases hsc : Response.succeededCountOpt result result_key with
  | none => rw [hsc] at h; cases h
  | some sc =>
    rw [hsc] at h
    have henv : env = Response.mkPartialEnv result errors sc := by
      injection h with h'
      exact h'.symm
    subst henv
    obtain ⟨herr, hsucc, hpart⟩ := partialStatus_cases sc errors.length
    refine ⟨?_, ?_, ?_, sc, errors.length, rfl, rfl, rfl, rfl⟩
    · rw [envStatus_mkPartialEnv, envSucceeded_mkPartialEnv]
      simp only [Option.some.injEq, Json.str.injEq, Json.num.injEq, Nat.cast_eq_zero]
      rw [herr]
      constructor
      · rintro ⟨h1, h2⟩
        exact ⟨h1, by simpa [List.length_eq_zero] using h2⟩
      · rintro ⟨h1, h2⟩
        exact ⟨h1, by simpa [List.length_eq_zero] using h2⟩
    · rw [envStatus_mkPartialEnv]
      simp only [Option.some.injEq, Json.str.injEq]
      rw [hsucc, List.length_eq_zero]
    · rw [envStatus_mkPartialEnv, envSucceeded_mkPartialEnv]
      simp only [Option.some.injEq, Json.str.injEq, Json.num.injEq, Nat.cast_eq_zero, hpart,
        ne_eq, ← List.length_eq_zero]

def c1Result : List (String × Json) := [("items", Json.arr [Json.num 1])]

def c1Errors : List (List (String × Json)) := [[("recoverable", Json.bool true)]]

def c1Env : Json := (Response.partialResp c1Result c1Errors none).getD Json.null

/-- C1 witness: a concrete partial call (one succeeded item, one error) on
which the invariants of `partial_status_invariant` are checked. -/
theorem partial_status_invariant_witness :
    envStatus c1Env = some (Json.str "partial") ∧
    envSummaryField c1Env "total" = some (Json.num 2) := by
  have h := partial_status_invariant c1Result c1Errors none c1Env rfl
  refine ⟨h.2.2.1.mpr ⟨?_, ?_⟩, rfl⟩
  · have hs : envSummaryField c1Env "succeeded" = some (Json.num 1) := rfl
    rw [hs]
    simp
  · simp [c1Errors]

/-- Spec-side description of the auto-detected succeeded count: the length of
the first list-typed value found when iterating the result mapping in
insertion order, `0` if no value is a list. -/
def specFirstListLen (result : List (String × Json)) : Nat :=
  match result.find? (fun p => match p.2 with | Json.arr _ => true | _ => false) with
  | some (_, Json.arr xs) => xs.length
  | _ => 0

theorem autoSucceeded_eq_spec (result : List (String × Json)) :
    Response.autoSucceeded result = specFirstListLen result := by
  induction result with
  | nil => rfl
  | cons p rest ih =>
    obtain ⟨k, v⟩ := p
    cases v with
    | arr xs => rfl
    | null => simpa [Response.autoSucceeded, specFirstListLen, List.find?] using ih
    | bool b => simpa [Response.autoSucceeded, specFirstListLen, List.find?] using ih
    | num n => simpa [Response.autoSucceeded, specFirstListLen, List.find?] using ih
    | str s => simpa [Response.autoSucceeded, specFirstListLen, List.find?] using ih
    | obj kvs => simpa [Response.autoSucceeded, specFirstListLen, List.find?] using ih

def c10Result : List (String × Json) :=
  [("xs", Json.arr [Json.num 1, Json.num 2]), ("", Json.arr [Json.num 1])]

/-- C10 counterexample: `Response.partial` called with the given (but
falsy) `result_key = ""` uses the auto-detected count `2` (first list value
in insertion order), not the length `1` of `result[""]` as the claim states
for every given key. -/
theorem partial_result_key_counterexample :
    (Response.partialResp c10Result [] (some "")).map
        (fun env => envSummaryField env "succeeded") = some (some (Json.num 2)) ∧
    Json.pyLen (Json.dictGetD c10Result "" (Json.arr [])) = some 1 ∧
    (2 : Int) ≠ (1 : Int) := ⟨rfl, rfl, by decide⟩

/-- C10 (amended): without a `result_key` the succeeded count is the length
of the first list-typed value in insertion order (0 if none); with a
non-empty `result_key` it is the length of `result.get(result_key, [])`
whenever that length is defined, hence 0 when the key is absent; an
empty-string `result_key` is falsy in Python and behaves exactly like no
key at all. -/
theorem partial_succeeded_selection (result : List (String × Json))
    (errors : List (List (String × Json))) :
    (∀ env, Response.partialResp result errors none = some env →
      envSummaryField env "succeeded" = some (Json.num (specFirstListLen result))) ∧
    (∀ k env, k ≠ "" → Response.partialResp result errors (some k) = some env →
      ∃ n : Nat, Json.pyLen (Json.dictGetD result k (Json.arr [])) = some n ∧
        envSummaryField env "succeeded" = some (Json.num n)) ∧
    (∀ k env, Json.dictGet result k = none → k ≠ "" →
      Response.partialResp result errors (some k) = some env →
      envSummaryField env "succeeded" = some (Json.num 0)) ∧
    Response.partialResp result errors (some "") = Response.partialResp result errors none := by
  refine ⟨?_, ?_, ?_, rfl⟩
  · intro env h
    have h2 : some (Response.mkPartialEnv result errors (Response.autoSucceeded result))
        = some env := h
    injection h2 with h3
    rw [← h3, envSucceeded_mkPartialEnv, autoSucceeded_eq_spec]
  · intro k env hk h
    simp only [Response.partialResp, Response.succeededCountOpt] at h
    rw [if_pos hk] at h
    cases hp : Json.pyLen (Json.dictGetD result k (Json.arr [])) with
    | none => rw [hp] at h; cases h
    | some n =>
      rw [hp] at h
      refine ⟨n, rfl, ?_⟩
      injection h with h3
      rw [← h3]
      exact envSucceeded_mkPartialEnv result errors n
  · intro k env hnone hk h
    simp only [Response.partialResp, Response.succeededCountOpt] at h
    rw [if_pos hk] at h
    rw [Json.dictGetD, hnone] at h
    have h2 : some (Response.mkPartialEnv result errors 0) = some env := h
    injection h2 with h3
    rw [← h3]
    exact envSucceeded_mkPartialEnv result errors 0

def c10Env : Json := (Response.partialResp c10Result [] (some "xs")).getD Json.null

/-- C10 witness: with the non-empty key `"xs"` present in the result, the
succeeded count is the length of `result["xs"]`, namely `2`. -/
theorem partial_succeeded_selection_witness :
    envSummaryField c10Env "succeeded" = some (Json.num 2) := by
  obtain ⟨-, h2, -, -⟩ := partial_succeeded_selection c10Result []
  obtain ⟨n, hn, henv⟩ := h2 "xs" c10Env (by decide) rfl
  have hpl : Json.pyLen (Json.dictGetD c10Result "xs" (Json.arr [])) = some 2 := rfl
  rw [hpl] at hn
  injection hn with hn'
  subst hn'
  exact henv

/-- The error kinds of `errors.py` (`ErrorCode`). -/
inductive ErrorCode where
  | INVALID_INPUT
  | MISSING_PARAM
  | INVALID_PATH
  | NOT_FOUND
  | CONFLICT
  | PRECONDITION
  | TIMEOUT
  | PERMISSION
  | INTERNAL
  | DEPENDENCY
deriving DecidableEq

/-- `ErrorCode.value`: the string value of each enum member. -/
def ErrorCode.val : ErrorCode → String
  | .INVALID_INPUT => "INVALID_INPUT"
  | .MISSING_PARAM => "MISSING_PARAM"
  | .INVALID_PATH => "INVALID_PATH"
  | .NOT_FOUND => "NOT_FOUND"
  | .CONFLICT => "CONFLICT"
  | .PRECONDITION => "PRECONDITION"
  | .TIMEOUT => "TIMEOUT"
  | .PERMISSION => "PERMISSION"
  | .INTERNAL => "INTERNAL"
  | .DEPENDENCY => "DEPENDENCY"

/-- The static per-kind recoverability table (`ErrorCode.recoverable`). -/
def ErrorCode.recoverableDefault : ErrorCode → Bool
  | .INVALID_INPUT => true
  | .MISSING_PARAM => true
  | .INVALID_PATH => true
  | .NOT_FOUND => true
  | .CONFLICT => true
  | .PRECONDITION => true
  | _ => false

/-- `ToolError` from `errors.py`: a structured error; `recoverable` defaults
from the per-kind table unless overridden at construction. -/
structure ToolError where
  code : ErrorCode
  message : String
  recoverableOverride : Option Bool
  suggestion : Option String
  context : Option (List (String × Json))

/-- The resolved `recoverable` attribute of a `ToolError`. -/
def ToolError.recoverable (e : ToolError) : Bool :=
  e.recoverableOverride.getD e.code.recoverableDefault

/-- `ToolError.to_response` from `errors.py`. -/
def ToolError.to_response (e : ToolError) : Json :=
  Response.error e.code.val e.message e.recoverable e.suggestion e.context

/-- A stream (or session) event is a JSON object, as built by `StreamEvent`
and `SessionEvent`. -/
abbrev Evt := List (String × Json)

/-- The check `event.get("type") == "result"` of `run_streaming_tool`. -/
def isResultEvent (e : Evt) : Bool :=
  match Json.dictGet e "type" with
  | some (Json.str s) => s == "result"
  | _ => false

/-- `run_streaming_tool` from `streaming.py`: drains the finite event
sequence, emitting each event as one flushed JSON line in yield order, and
tracks the most recently seen event whose type is `result`.  The model
returns the pair (lines emitted on stdout, final result). -/
def run_streaming_tool (gen : List Evt) : List Evt × Option Evt :=
  (gen,
   gen.foldl (fun final_result event =>
     if isResultEvent event then some event else final_result) none)

theorem foldl_result_aux (l : List Evt) (acc : Option Evt) :
    l.foldl (fun final_result event =>
        if isResultEvent event then some event else final_result) acc =
      match (l.filter isResultEvent).getLast? with
      | some e => some e
      | none => acc := by
  induction l using List.reverseRecOn generalizing acc with
  | nil => rfl
  | append_singleton t a ih =>
    rw [List.foldl_append]
    simp only [List.foldl_cons, List.foldl_nil]
    by_cases ha : isResultEvent a
    · simp [ha, List.filter_append, List.getLast?_concat]
    · simp [ha, List.filter_append, ih]

/-- C8: for every finite stream-event sequence, the driver emits exactly the
producer's events, once each, in yield order, and returns the last event
whose type is `result` (or none when the sequence has none). -/
theorem streaming_driver_contract (gen : List Evt) :
    (run_streaming_tool gen).1 = gen ∧
    (run_streaming_tool gen).2 = (gen.filter isResultEvent).getLast? := by
  refine ⟨rfl, ?_⟩
  show gen.foldl _ none = _
  rw [foldl_result_aux]
  cases (gen.filter isResultEvent).getLast? <;> rfl

/-- One element of a compiled resource pattern: a literal character (the
result of escaping) or a named capture group matching `[^/]+`. -/
inductive PatElem where
  | lit : Char → PatElem
  | cap : String → PatElem

/-- The opening brace character (written via its code point). -/
def braceOpen : Char := Char.ofNat 123

/-- The closing brace character (written via its code point). -/
def braceClose : Char := Char.ofNat 125

/-- `\w` of the placeholder regex `\{(\w+)\}` (ASCII view). -/
def isWordChar (c : Char) : Bool := c.isAlphanum || c == '_'

/-- The NUL character, used by `_fetch_resource` as its placeholder marker. -/
def nulChar : Char := Char.ofNat 0

/-- First compilation pass of `_fetch_resource`,
`re.sub(r"\{(\w+)\}", "\x00\\1\x00", pattern)`: scanning left to right,
each `{name}` with a non-empty word name and a closing brace is replaced by
the marker run NUL-name-NUL; every other character is copied and the
replacement text is not rescanned.  Fuel only drives structural recursion
(each step consumes at least one input character); callers supply the input
length. -/
def substPlaceholders : Nat → List Char → List Char
  | 0, _ => []
  | _, [] => []
  | fuel + 1, c :: rest =>
    if c = braceOpen then
      match rest.takeWhile isWordChar with
      | [] => c :: substPlaceholders fuel rest
      | nm =>
        match rest.dropWhile isWordChar with
        | d :: rest2 =>
          if d = braceClose then
            nulChar :: (nm ++ nulChar :: substPlaceholders fuel rest2)
          else c :: substPlaceholders fuel rest
        | [] => c :: substPlaceholders fuel rest
    else c :: substPlaceholders fuel rest

/-- Second and third passes of `_fetch_resource` (`re.escape` followed by
`re.sub(r"\x00(\w+)\x00", r"(?P<\1>[^/]+)", escaped)`), at the level of the
compiled regex's elements.  `re.escape` (Python >= 3.7) escapes only regex
metacharacters; word characters and NUL pass through unchanged, so after it
every non-marker character is a single literal atom and the marker
substitution sees exactly the NUL-wordrun-NUL spans of the unescaped text.
Scanning left to right, a NUL followed by one or more word characters and a
closing NUL becomes the capture group `(?P<name>[^/]+)`; any other
character — literal NULs included — is one literal atom.  Note this
applies to NUL runs already present in the original pattern, not only to
the markers pass one introduced for `{name}`. -/
def markersToElems : Nat → List Char → List PatElem
  | 0, _ => []
  | _, [] => []
  | fuel + 1, c :: rest =>
    if c = nulChar then
      match rest.takeWhile isWordChar with
      | [] => .lit c :: markersToElems fuel rest
      | nm =>
        match rest.dropWhile isWordChar with
        | d :: rest2 =>
          if d = nulChar then
            .cap (String.mk nm) :: markersToElems fuel rest2
          else .lit c :: markersToElems fuel rest
        | [] => .lit c :: markersToElems fuel rest
    else .lit c :: markersToElems fuel rest

/-- The capture-group names of a compiled pattern, in order. -/
def capNames : List PatElem → List String
  | [] => []
  | .lit _ :: rest => capNames rest
  | .cap n :: rest => n :: capNames rest

/-- `true` iff no name repeats; `re` raises `re.error` on a duplicated
group name when `re.fullmatch` compiles the final pattern. -/
def nodupNames : List String → Bool
  | [] => true
  | n :: rest => !(rest.contains n) && nodupNames rest

/-- Pattern compilation as performed by `_fetch_resource`; `none` models
the `re.error` (duplicate group name) raised when `re.fullmatch` compiles
the substituted pattern. -/
def compilePat (l : List Char) : Option (List PatElem) :=
  let temp := substPlaceholders l.length l
  let elems := markersToElems temp.length temp
  if nodupNames (capNames elems) then some elems else none

/-- Greedy backtracking for one capture group `[^/]+`: try the capture
lengths `k, k-1, ..., 1` (longest first, as the regex engine does), where
`next` matches the rest of the pattern against the remaining characters. -/
def tryCapLen (n : String) (next : List Char → Option (List (String × String)))
    (cs : List Char) : Nat → Option (List (String × String))
  | 0 => none
  | k + 1 =>
    match next (cs.drop (k + 1)) with
    | some caps => some ((n, String.mk (cs.take (k + 1))) :: caps)
    | none => tryCapLen n next cs k

/-- Anchored (`re.fullmatch`) matching of a compiled pattern, with the
greedy semantics of `(?P<name>[^/]+)` groups; returns the named captures in
pattern order. -/
def matchElems : List PatElem → List Char → Option (List (String × String))
  | [] => fun cs =>
      match cs with
      | [] => some []
      | _ :: _ => none
  | .lit c :: rest => fun cs =>
      match cs with
      | [] => none
      | x :: xs => if x = c then matchElems rest xs else none
  | .cap n :: rest => fun cs =>
      tryCapLen n (matchElems rest) cs ((cs.takeWhile (fun c => c ≠ '/')).length)

/-- One `re.fullmatch(regex_pattern, uri)` attempt of `_fetch_resource`:
`Except.error` models the uncaught `re.error` from compilation, `ok none` a
non-match, `ok (some caps)` a match with its `groupdict()`. -/
def matchPattern (pat uri : String) :
    Except String (Option (List (String × String))) :=
  match compilePat pat.data with
  | none => .error "re.error: redefinition of group name"
  | some es => .ok (matchElems es uri.data)

/-- `AgentCLI._fetch_resource`: try each registered pattern in registration
order; on the first full match invoke the handler with the captured
placeholder values (`match.groupdict()`); when nothing matches, return the
recoverable `NOT_FOUND` envelope.  A `re.error` from compiling a pattern
propagates out of the method (it is caught nowhere), modelled as
`Except.error`.  Handlers are modelled as total functions from captures to
the JSON they print. -/
def fetchResource (resources : List (String × (List (String × String) → Json)))
    (uri : String) : Except String Json :=
  match resources with
  | [] =>
    .ok (Response.error "NOT_FOUND" ("No resource matches URI: " ++ uri) true none none)
  | (pat, fn) :: rest =>
    match matchPattern pat uri with
    | .error e => .error e
    | .ok (some caps) => .ok (fn caps)
    | .ok none => fetchResource rest uri

/-- Reassemble a character string from pattern elements and a capture list:
literals contribute themselves, captures their captured text; fails if the
captures do not line up with the pattern's groups. -/
def rebuild : List PatElem → List (String × String) → Option (List Char)
  | [], [] => some []
  | [], _ :: _ => none
  | .lit c :: rest, caps => (rebuild rest caps).map (fun t => c :: t)
  | .cap _ :: _, [] => none
  | .cap n :: rest, (m, v) :: caps =>
      if m = n then (rebuild rest caps).map (fun t => v.data ++ t) else none

/-- Well-formed captures: each captured value is a non-empty string free of
the path separator. -/
def capsOk (caps : List (String × String)) : Prop :=
  ∀ p ∈ caps, p.2 ≠ "" ∧ ∀ c ∈ p.2.data, c ≠ '/'

theorem takeWhile_len_le {α : Type} (p : α → Bool) (l : List α) :
    (l.takeWhile p).length ≤ l.length := by
  induction l with
  | nil => simp [List.takeWhile]
  | cons a t ih =>
    simp only [List.takeWhile]
    split
    · simpa using Nat.succ_le_succ ih
    · simp

theorem take_all_of_takeWhile {α : Type} (p : α → Bool) :
    ∀ (l : List α) (k : Nat), k ≤ (l.takeWhile p).length → ∀ c ∈ l.take k, p c := by
  intro l
  induction l with
  | nil => intro k hk c hc; simp at hc
  | cons a t ih =>
    intro k hk c hc
    cases k with
    | zero => simp at hc
    | succ k' =>
      cases hpa : p a with
      | false =>
        rw [List.takeWhile_cons_of_neg (by simp [hpa])] at hk
        simp at hk
      | true =>
        rw [List.takeWhile_cons_of_pos (by simp [hpa])] at hk
        simp only [List.length_cons] at hk
        simp only [List.take_succ_cons] at hc
        rcases List.mem_cons.mp hc with rfl | hc'
        · exact hpa
        · exact ih k' (Nat.le_of_succ_le_succ hk) c hc'

theorem tryCapLen_sound (n : String) (rest : List PatElem)
    (next : List Char → Option (List (String × String)))
    (hnext : ∀ cs' caps', next cs' = some caps' →
      rebuild rest caps' = some cs' ∧ capsOk caps')
    (cs : List Char) :
    ∀ k, k ≤ (cs.takeWhile (fun c => c ≠ '/')).length →
      ∀ caps, tryCapLen n next cs k = some caps →
        rebuild (PatElem.cap n :: rest) caps = some cs ∧ capsOk caps := by
  intro k
  induction k with
  | zero => intro _ caps h; simp [tryCapLen] at h
  | succ k' ihk =>
    intro hk caps h
    simp only [tryCapLen] at h
    cases hm : next (cs.drop (k' + 1)) with
    | some caps' =>
      rw [hm] at h
      obtain ⟨hr, hok⟩ := hnext _ _ hm
      injection h with h'
      subst h'
      have h1 : (cs.takeWhile (fun c => c ≠ '/')).length ≤ cs.length :=
        takeWhile_len_le _ _
      have hlen : (cs.take (k' + 1)).length = k' + 1 := by
        rw [List.length_take]
        exact Nat.min_eq_left (by omega)
      have hchars : ∀ c ∈ cs.take (k' + 1), c ≠ '/' := by
        intro c hc
        have := take_all_of_takeWhile (fun c => c ≠ '/') cs (k' + 1) hk c hc
        simpa using this
      constructor
      · simp only [rebuild, if_pos, eq_self_iff_true, if_true, hr, Option.map_some,
          Option.map_some']
        exact congrArg some (List.take_append_drop (k' + 1) cs)
      · intro p hp
        rcases List.mem_cons.mp hp with rfl | hp'
        · refine ⟨?_, ?_⟩
          · intro hemp
            have hdata : cs.take (k' + 1) = ([] : List Char) := by
              have := congrArg String.data hemp
              simpa using this
            rw [hdata] at hlen
            simp at hlen
          · intro c hc
            exact hchars c (by simpa using hc)
        · exact hok p hp'
    | none =>
      rw [hm] at h
      exact ihk (by omega) caps h

theorem matchElems_sound :
    ∀ (es : List PatElem) (cs : List Char) (caps : List (String × String)),
      matchElems es cs = some caps → rebuild es caps = some cs ∧ capsOk caps := by
  intro es
  induction es with
  | nil =>
    intro cs caps h
    cases cs with
    | nil =>
      simp only [matchElems] at h
      injection h with h'
      subst h'
      exact ⟨rfl, by intro p hp; simp at hp⟩
    | cons x xs => simp [matchElems] at h
  | cons e rest ih =>
    cases e with
    | lit c =>
      intro cs caps h
      cases cs with
      | nil => simp [matchElems] at h
      | cons x xs =>
        simp only [matchElems] at h
        by_cases hx : x = c
        · rw [if_pos hx] at h
          obtain ⟨hr, hok⟩ := ih xs caps h
          subst hx
          exact ⟨by simp [rebuild, hr], hok⟩
        · rw [if_neg hx] at h
          cases h
    | cap n =>
      intro cs caps h
      simp only [matchElems] at h
      exact tryCapLen_sound n rest (matchElems rest)
        (fun cs' caps' h' => ih cs' caps' h') cs _ (le_refl _) caps h

theorem matchElems_all_lits (ls : List Char) :
    ∀ cs : List Char, matchElems (ls.map PatElem.lit) cs = some [] ↔ cs = ls := by
  induction ls with
  | nil =>
    intro cs
    cases cs with
    | nil => simp [matchElems]
    | cons x xs => simp [matchElems]
  | cons c t ih =>
    intro cs
    cases cs with
    | nil => simp [matchElems]
    | cons x xs =>
      simp only [List.map_cons, matchElems]
      by_cases hx : x = c
      · rw [if_pos hx]
        rw [ih xs]
        subst hx
        simp
      · rw [if_neg hx]
        simp [hx]

theorem substPlaceholders_no_brace :
    ∀ (n : Nat) (cs : List Char), cs.length ≤ n → braceOpen ∉ cs →
      substPlaceholders n cs = cs := by
  intro n
  induction n with
  | zero =>
    intro cs hlen _
    have hnil : cs = [] := List.length_eq_zero.mp (Nat.le_zero.mp hlen)
    subst hnil
    rfl
  | succ n ih =>
    intro cs hlen hb
    cases cs with
    | nil => rfl
    | cons c rest =>
      have hc : ¬(c = braceOpen) := fun h => hb (h ▸ List.mem_cons_self c rest)
      simp only [substPlaceholders]
      rw [if_neg hc]
      simp only [List.cons.injEq]
      refine ⟨trivial, ih rest ?_ (fun h => hb (List.mem_cons_of_mem _ h))⟩
      simp only [List.length_cons] at hlen
      omega

theorem markersToElems_no_nul :
    ∀ (n : Nat) (cs : List Char), cs.length ≤ n → nulChar ∉ cs →
      markersToElems n cs = cs.map PatElem.lit := by
  intro n
  induction n with
  | zero =>
    intro cs hlen _
    have hnil : cs = [] := List.length_eq_zero.mp (Nat.le_zero.mp hlen)
    subst hnil
    rfl
  | succ n ih =>
    intro cs hlen hb
    cases cs with
    | nil => rfl
    | cons c rest =>
      have hc : ¬(c = nulChar) := fun h => hb (h ▸ List.mem_cons_self c rest)
      simp only [markersToElems]
      rw [if_neg hc]
      simp only [List.map_cons, List.cons.injEq]
      refine ⟨trivial, ih rest ?_ (fun h => hb (List.mem_cons_of_mem _ h))⟩
      simp only [List.length_cons] at hlen
      omega

theorem capNames_map_lit (cs : List Char) : capNames (cs.map PatElem.lit) = [] := by
  induction cs with
  | nil => rfl
  | cons c t ih => simpa [capNames] using ih

theorem compilePat_lits (cs : List Char) (hb : braceOpen ∉ cs) (hn : nulChar ∉ cs) :
    compilePat cs = some (cs.map PatElem.lit) := by
  simp only [compilePat]
  rw [substPlaceholders_no_brace cs.length cs (le_refl _) hb,
    markersToElems_no_nul cs.length cs (le_refl _) hn, capNames_map_lit]
  rfl

/-- C2 counterexample: the pattern `"a\x00b\x00c"` consists solely of
literal characters (no `{name}` placeholder anywhere), yet it matches the
URI `"aZc"` with capture `b = "Z"` — `re.escape` leaves NUL unescaped, so
the compiler's second substitution turns the literal run NUL-b-NUL into the
capture group `(?P<b>[^/]+)`, refuting "literal characters match only
themselves" as universally stated. -/
theorem resource_nul_literal_counterexample :
    matchPattern "a\x00b\x00c" "aZc" = Except.ok (some [("b", "Z")]) ∧
    "a\x00b\x00c" ≠ "aZc" := by
  refine ⟨rfl, by decide⟩

/-- C2 (amended): resource routing compiles a pattern so that (a) a pattern
free of braces and of NUL characters is matched by exactly itself and
nothing else — literal characters, regex metacharacters included, match
only themselves, except that a literal NUL-wordrun-NUL span is itself
turned into a capture by the NUL-marker compilation, and a duplicate
placeholder name makes compilation fail with `re.error` instead of
matching; (b) every successful match covers the whole URI — it is
reassembled exactly from the pattern's literals and captures — and every
capture is a non-empty string free of `/`; (c) the pattern
`/files/{id}.json` rejects `/files/123Xjson` and accepts `/files/123.json`
capturing `id = "123"`; (d) fetching `/users/alice/files/doc.txt` against
the registered `/users/{u}/files/{f}` invokes the handler with exactly
`u = "alice", f = "doc.txt"`; and (e) a duplicate-name pattern does not
compile. -/
theorem resource_routing_contract :
    (∀ (pat uri : List Char), braceOpen ∉ pat → nulChar ∉ pat →
      compilePat pat = some (pat.map PatElem.lit) ∧
      (matchElems (pat.map PatElem.lit) uri = some [] ↔ uri = pat)) ∧
    (∀ (pat uri : String) (es : List PatElem) (caps : List (String × String)),
      compilePat pat.data = some es → matchElems es uri.data = some caps →
        rebuild es caps = some uri.data ∧
        ∀ p ∈ caps, p.2 ≠ "" ∧ ∀ c ∈ p.2.data, c ≠ '/') ∧
    matchPattern "/files/{id}.json" "/files/123Xjson" = Except.ok none ∧
    matchPattern "/files/{id}.json" "/files/123.json" =
      Except.ok (some [("id", "123")]) ∧
    (∀ h : List (String × String) → Json,
      fetchResource [("/users/{u}/files/{f}", h)] "/users/alice/files/doc.txt" =
        Except.ok (h [("u", "alice"), ("f", "doc.txt")])) ∧
    compilePat "/x/{a}/{a}".data = none := by
  refine ⟨?_, ?_, rfl, rfl, fun h => rfl, rfl⟩
  · intro pat uri hb hn
    exact ⟨compilePat_lits pat hb hn, matchElems_all_lits pat uri⟩
  · intro pat uri es caps hc h
    exact matchElems_sound es uri.data caps h

def c2Elems : List PatElem := (compilePat "/files/{id}.json".data).getD []

/-- C2 witness: the general parts of `resource_routing_contract` applied at
the concrete pattern `/files/{id}.json` and URI `/files/123.json` (via the
compiled elements), and at the all-literal pattern `/a.b`. -/
theorem resource_routing_contract_witness :
    rebuild c2Elems [("id", "123")] = some "/files/123.json".data ∧
    matchElems ("/a.b".data.map PatElem.lit) "/a.b".data = some [] := by
  have h := resource_routing_contract
  constructor
  · exact (h.2.1 "/files/{id}.json" "/files/123.json" c2Elems [("id", "123")] rfl rfl).1
  · exact ((h.1 "/a.b".data "/a.b".data (by decide) (by decide)).2).mpr rfl

/-- One line offered by the input channel, as classified by `json.loads`:
either it parses to a JSON value or parsing raises.  `readline` returning
the empty string (EOF / closed channel) is modelled by list exhaustion. -/
inductive InLine where
  | json : Json → InLine
  | bad : String → InLine

/-- The outcome of advancing a generator (`next` / `send`): it yields an
event together with its next state, is exhausted (`StopIteration`), or
raises an exception with a message. -/
inductive GenOut (σ : Type) where
  | yields : Evt → σ → GenOut σ
  | done : GenOut σ
  | raises : String → GenOut σ

/-- A bidirectional session generator modelled as a step automaton:
`start` is the result of `next(gen)`, `send s v` that of `gen.send(v)` from
the state reached at the previous yield. -/
structure SessionGen (σ : Type) where
  start : GenOut σ
  send : σ → Json → GenOut σ

/-- The implicit input synthesized by `receive_session_input` when
`sys.stdin.readline()` returns the empty string. -/
def quitInput : Json := Json.obj [("action", Json.str "quit")]

/-- `receive_session_input` from `session.py`: one read from the input
channel; at EOF the line is empty and `{"action": "quit"}` is synthesized;
otherwise the line is parsed as JSON, a parse failure raising. -/
def receive_session_input : List InLine → Except String Json × List InLine
  | [] => (.ok quitInput, [])
  | .json j :: rest => (.ok j, rest)
  | .bad m :: rest => (.error m, rest)

/-- The `{status: success}` object returned by `run_session_tool`. -/
def sessionSuccess : Json := Json.obj [("status", Json.str "success")]

/-- The `{status: error}` object built by `run_session_tool`'s outer
`except Exception` handler. -/
def sessionError (m : String) : Json :=
  Json.obj [("status", Json.str "error"),
    ("error", Json.obj [("code", Json.str "INTERNAL"), ("message", Json.str m),
      ("recoverable", Json.bool false)])]

/-- The check `event.get("type") == "session_end"`. -/
def isSessionEnd (e : Evt) : Bool :=
  match Json.dictGet e "type" with
  | some (Json.str s) => s == "session_end"
  | _ => false

/-- The `while True` loop of `run_session_tool`, fuel-bounded (the Python
loop can run unboundedly only when the generator keeps yielding after the
channel is exhausted; `none` marks fuel running out and never occurs in the
runs the claims examine).  Returns the events emitted inside the loop and
the status object returned. -/
def runSessionLoop {σ : Type} (g : SessionGen σ) : σ → List InLine → Nat →
    Option (List Evt × Json)
  | _, _, 0 => none
  | s, stdin, fuel + 1 =>
    match receive_session_input stdin with
    | (.error m, _) => some ([], sessionError m)
    | (.ok input, rest) =>
      match g.send s input with
      | .raises m => some ([], sessionError m)
      | .done => some ([], sessionSuccess)
      | .yields e s' =>
        if isSessionEnd e then some ([e], sessionSuccess)
        else
          match runSessionLoop g s' rest fuel with
          | none => none
          | some (es, st) => some (e :: es, st)

/-- `run_session_tool` from `session.py`: advance the generator to its
first yield and emit that event, then loop.  `StopIteration` raised by the
very first `next(gen)` is an ordinary exception to the outer handler
(`str(StopIteration()) = ""`).  Returns (emitted events, status object). -/
def run_session_tool {σ : Type} (g : SessionGen σ) (stdin : List InLine) (fuel : Nat) :
    Option (List Evt × Json) :=
  match g.start with
  | .raises m => some ([], sessionError m)
  | .done => some ([], sessionError "")
  | .yields e s =>
    match runSessionLoop g s stdin fuel with
    | none => none
    | some (es, st) => some (e :: es, st)

theorem runSessionLoop_status {σ : Type} (g : SessionGen σ) :
    ∀ (fuel : Nat) (s : σ) (stdin : List InLine) (es : List Evt) (st : Json),
      runSessionLoop g s stdin fuel = some (es, st) →
      st = sessionSuccess ∨ ∃ m, st = sessionError m := by
  intro fuel
  induction fuel with
  | zero => intro s stdin es st h; simp [runSessionLoop] at h
  | succ fuel ih =>
    intro s stdin es st h
    simp only [runSessionLoop] at h
    split at h
    · injection h with h'
      injection h' with h1 h2
      exact Or.inr ⟨_, h2.symm⟩
    · split at h
      · injection h with h'
        injection h' with h1 h2
        exact Or.inr ⟨_, h2.symm⟩
      · injection h with h'
        injection h' with h1 h2
        exact Or.inl h2.symm
      · split at h
        · injection h with h'
          injection h' with h1 h2
          exact Or.inl h2.symm
        · split at h
          · cases h
          · injection h with h'
            injection h' with h1 h2
            subst h2
            rename_i heq
            exact ih _ _ _ _ heq

theorem receive_error_inv (stdin : List InLine) (m : String) (rest : List InLine)
    (h : receive_session_input stdin = (Except.error m, rest)) :
    InLine.bad m ∈ stdin := by
  cases stdin with
  | nil => simp [receive_session_input] at h
  | cons l t =>
    cases l with
    | json j => simp [receive_session_input] at h
    | bad m' =>
      simp only [receive_session_input] at h
      injection h with h1 h2
      injection h1 with h3
      subst h3
      exact List.mem_cons_self _ _

theorem runSessionLoop_success {σ : Type} (g : SessionGen σ)
    (hsend : ∀ s v m, g.send s v ≠ GenOut.raises m) :
    ∀ (fuel : Nat) (s : σ) (stdin : List InLine),
      (∀ l ∈ stdin, ∀ m, l ≠ InLine.bad m) →
      ∀ es st, runSessionLoop g s stdin fuel = some (es, st) → st = sessionSuccess := by
  intro fuel
  induction fuel with
  | zero => intro s stdin _ es st h; simp [runSessionLoop] at h
  | succ fuel ih =>
    intro s stdin hb es st h
    cases stdin with
    | nil =>
      simp only [runSessionLoop, receive_session_input] at h
      cases hs : g.send s quitInput with
      | raises m => exact absurd hs (hsend s quitInput m)
      | done =>
        rw [hs] at h
        injection h with h'
        injection h' with h1 h2
        exact h2.symm
      | yields e s' =>
        simp only [hs] at h
        by_cases he : isSessionEnd e
        · rw [if_pos he] at h
          injection h with h'
          injection h' with h1 h2
          exact h2.symm
        · rw [if_neg he] at h
          cases hl : runSessionLoop g s' [] fuel with
          | none => rw [hl] at h; cases h
          | some p =>
            obtain ⟨es', st'⟩ := p
            rw [hl] at h
            injection h with h'
            injection h' with h1 h2
            subst h2
            exact ih s' [] (by intro l hl'; simp at hl') es' st' hl
    | cons a t =>
      cases a with
      | bad m => exact absurd rfl (hb (InLine.bad m) (List.mem_cons_self _ _) m)
      | json j =>
        simp only [runSessionLoop, receive_session_input] at h
        cases hs : g.send s j with
        | raises m => exact absurd hs (hsend s j m)
        | done =>
          rw [hs] at h
          injection h with h'
          injection h' with h1 h2
          exact h2.symm
        | yields e s' =>
          simp only [hs] at h
          by_cases he : isSessionEnd e
          · rw [if_pos he] at h
            injection h with h'
            injection h' with h1 h2
            exact h2.symm
          · rw [if_neg he] at h
            cases hl : runSessionLoop g s' t fuel with
            | none => rw [hl] at h; cases h
            | some p =>
              obtain ⟨es', st'⟩ := p
              rw [hl] at h
              injection h with h'
              injection h' with h1 h2
              subst h2
              exact ih s' t (fun l hl' m => hb l (List.mem_cons_of_mem _ hl') m) es' st' hl

theorem runSessionLoop_events {σ : Type} (g : SessionGen σ) :
    ∀ (fuel : Nat) (s : σ) (stdin : List InLine) (es : List Evt) (st : Json),
      runSessionLoop g s stdin fuel = some (es, st) →
      (∀ e ∈ es, isSessionEnd e = false) ∨
      ∃ es₀ eend, es = es₀ ++ [eend] ∧ (∀ e ∈ es₀, isSessionEnd e = false) ∧
        isSessionEnd eend = true ∧ st = sessionSuccess := by
  intro fuel
  induction fuel with
  | zero => intro s stdin es st h; simp [runSessionLoop] at h
  | succ fuel ih =>
    intro s stdin es st h
    simp only [runSessionLoop] at h
    split at h
    · injection h with h'
      injection h' with h1 h2
      subst h1
      exact Or.inl (by intro e he; simp at he)
    · split at h
      · injection h with h'
        injection h' with h1 h2
        subst h1
        exact Or.inl (by intro e he; simp at he)
      · injection h with h'
        injection h' with h1 h2
        subst h1
        exact Or.inl (by intro e he; simp at he)
      · rename_i e s' heq
        split at h
        · rename_i hend
          injection h with h'
          injection h' with h1 h2
          subst h1
          exact Or.inr ⟨[], e, rfl, by intro x hx; simp at hx, by simpa using hend, h2.symm⟩
        · rename_i hend
          split at h
          · cases h
          · rename_i es' st' hrec
            injection h with h'
            injection h' with h1 h2
            subst h1
            subst h2
            rcases ih _ _ _ _ hrec with hall | ⟨es₀, eend, rfl, h₀, hE, hst⟩
            · refine Or.inl ?_
              intro x hx
              rcases List.mem_cons.mp hx with rfl | hx'
              · simpa using hend
              · exact hall x hx'
            · exact Or.inr ⟨e :: es₀, eend, by simp, by
                intro x hx
                rcases List.mem_cons.mp hx with rfl | hx'
                · simpa using hend
                · exact h₀ x hx', hE, hst⟩

/-- The session generator that is exhausted before yielding any event. -/
def emptySessionGen : SessionGen Unit :=
  { start := GenOut.done, send := fun _ _ => GenOut.done }

/-- C4 counterexample: the immediately-exhausted generator is a session
generator that completes by exhaustion, yet `run_session_tool` returns a
`status: error` object (code `INTERNAL`, message `str(StopIteration()) = ""`),
not `{status: success}` — the initial `next(gen)`'s `StopIteration` lands in
the outer `except Exception` handler. -/
theorem session_empty_generator_counterexample :
    run_session_tool emptySessionGen [] 1 = some ([], sessionError "") ∧
    envStatus (sessionError "") = some (Json.str "error") ∧
    sessionError "" ≠ sessionSuccess := by
  refine ⟨rfl, rfl, ?_⟩
  intro h
  simp [sessionError, sessionSuccess] at h

/-- C4 (amended): the driver reads one line per loop iteration, synthesizing
`{"action": "quit"}` at EOF; a terminating run returns either
`{status: success}` or an INTERNAL `{status: error}` object; it returns
success whenever the generator yields a first event, never raises, and all
input lines parse — covering completion by a loop-emitted `session_end`
event or by generator exhaustion *after* the first event; a generator
exhausted before its first yield produces the INTERNAL error with empty
message, and a generator raising at the first `next` the INTERNAL error
with its message; inside the loop, every event before a terminating
`session_end` is a non-`session_end` event and a run ending in
`session_end` returns success.  The loop iteration that reads a line
failing to parse returns the INTERNAL error with the parse exception's
message; the iteration whose `gen.send` raises (on a read input or on the
EOF-synthesized quit) returns the INTERNAL error with that message; a
loop iteration emitting an ordinary event passes the continuation's status
through unchanged, and so does the driver around the loop — hence a
mid-session raise or parse failure surfaces as the run's INTERNAL
`{status: error}` result; `sessionError` objects carry `status = "error"`
and `code = "INTERNAL"`. -/
theorem session_driver_contract {σ : Type} (g : SessionGen σ) (stdin : List InLine)
    (fuel : Nat) (es : List Evt) (st : Json)
    (h : run_session_tool g stdin fuel = some (es, st)) :
    receive_session_input [] = (Except.ok quitInput, []) ∧
    (st = sessionSuccess ∨ ∃ m, st = sessionError m) ∧
    ((∀ l ∈ stdin, ∀ m, l ≠ InLine.bad m) → (∀ s v m, g.send s v ≠ GenOut.raises m) →
      (∃ e s0, g.start = GenOut.yields e s0) → st = sessionSuccess) ∧
    (g.start = GenOut.done → st = sessionError "") ∧
    (∀ m, g.start = GenOut.raises m → st = sessionError m) ∧
    (∀ (s0 : σ) stdin' fuel' es' st', runSessionLoop g s0 stdin' fuel' = some (es', st') →
      (∀ e ∈ es', isSessionEnd e = false) ∨
      ∃ es₀ eend, es' = es₀ ++ [eend] ∧ (∀ e ∈ es₀, isSessionEnd e = false) ∧
        isSessionEnd eend = true ∧ st' = sessionSuccess) ∧
    (∀ (s : σ) (m : String) (rest : List InLine) (fuel' : Nat),
      runSessionLoop g s (InLine.bad m :: rest) (fuel' + 1) =
        some ([], sessionError m)) ∧
    (∀ (s : σ) (j : Json) (rest : List InLine) (fuel' : Nat) (m : String),
      g.send s j = GenOut.raises m →
      runSessionLoop g s (InLine.json j :: rest) (fuel' + 1) =
        some ([], sessionError m)) ∧
    (∀ (s : σ) (fuel' : Nat) (m : String), g.send s quitInput = GenOut.raises m →
      runSessionLoop g s [] (fuel' + 1) = some ([], sessionError m)) ∧
    (∀ (s s' : σ) (j : Json) (e : Evt) (rest : List InLine) (fuel' : Nat),
      g.send s j = GenOut.yields e s' → isSessionEnd e = false →
      runSessionLoop g s (InLine.json j :: rest) (fuel' + 1) =
        (runSessionLoop g s' rest fuel').map (fun p => (e :: p.1, p.2))) ∧
    (∀ (e : Evt) (s0 : σ), g.start = GenOut.yields e s0 →
      run_session_tool g stdin fuel =
        (runSessionLoop g s0 stdin fuel).map (fun p => (e :: p.1, p.2))) ∧
    (∀ m, envStatus (sessionError m) = some (Json.str "error") ∧
      envErrorField (sessionError m) "code" = some (Json.str "INTERNAL")) := by
  refine ⟨rfl, ?_, ?_, ?_, ?_, fun s0 stdin' fuel' es' st' h' =>
    runSessionLoop_events g fuel' s0 stdin' es' st' h', ?_, ?_, ?_, ?_, ?_,
    fun m => ⟨rfl, rfl⟩⟩
  · unfold run_session_tool at h
    cases hs : g.start with
    | raises m =>
      rw [hs] at h
      injection h with h'
      injection h' with h1 h2
      exact Or.inr ⟨m, h2.symm⟩
    | done =>
      rw [hs] at h
      injection h with h'
      injection h' with h1 h2
      exact Or.inr ⟨"", h2.symm⟩
    | yields e s0 =>
      simp only [hs] at h
      cases hl : runSessionLoop g s0 stdin fuel with
      | none => rw [hl] at h; cases h
      | some p =>
        obtain ⟨es', st'⟩ := p
        rw [hl] at h
        injection h with h'
        injection h' with h1 h2
        subst h2
        exact runSessionLoop_status g fuel s0 stdin es' st' hl
  · intro hb hsend hstart
    obtain ⟨e, s0, hs⟩ := hstart
    unfold run_session_tool at h
    simp only [hs] at h
    cases hl : runSessionLoop g s0 stdin fuel with
    | none => rw [hl] at h; cases h
    | some p =>
      obtain ⟨es', st'⟩ := p
      rw [hl] at h
      injection h with h'
      injection h' with h1 h2
      subst h2
      exact runSessionLoop_success g hsend fuel s0 stdin hb es' st' hl
  · intro hs
    unfold run_session_tool at h
    simp only [hs] at h
    injection h with h'
    injection h' with h1 h2
    exact h2.symm
  · intro m hs
    unfold run_session_tool at h
    simp only [hs] at h
    injection h with h'
    injection h' with h1 h2
    exact h2.symm
  · intro s m rest fuel'
    rfl
  · intro s j rest fuel' m hs
    simp [runSessionLoop, receive_session_input, hs]
  · intro s fuel' m hs
    simp [runSessionLoop, receive_session_input, hs]
  · intro s s' j e rest fuel' hs he
    cases hl : runSessionLoop g s' rest fuel' with
    | none => simp [runSessionLoop, receive_session_input, hs, he, hl]
    | some p =>
      obtain ⟨a, b⟩ := p
      simp [runSessionLoop, receive_session_input, hs, he, hl]
  · intro e s0 hs
    cases hl : runSessionLoop g s0 stdin fuel with
    | none => simp [run_session_tool, hs, hl]
    | some p =>
      obtain ⟨a, b⟩ := p
      simp [run_session_tool, hs, hl]

/-- A two-step demo session: a `session_start` event, then a `session_end`
on any input. -/
def demoSessionGen : SessionGen Nat :=
  { start := GenOut.yields [("type", Json.str "session_start")] 0,
    send := fun _ _ => GenOut.yields [("type", Json.str "session_end")] 1 }

def demoRun : Option (List Evt × Json) := run_session_tool demoSessionGen [] 2

def demoEvents : List Evt := (demoRun.getD ([], Json.null)).1

def demoStatus : Json := (demoRun.getD ([], Json.null)).2

/-- C4 witness: the demo session (EOF input channel, so the implicit quit is
sent; the generator answers with `session_end`) terminates with the success
status object. -/
theorem session_driver_contract_witness : demoStatus = sessionSuccess := by
  have h := session_driver_contract demoSessionGen [] 2 demoEvents demoStatus rfl
  exact h.2.2.1 (by intro l hl; simp at hl) (by intro s v m; simp [demoSessionGen])
    ⟨[("type", Json.str "session_start")], 0, rfl⟩

/-- A Python exception escaping `_sample_via_stdin`. -/
inductive PyExc where
  | runtimeError : String → PyExc
  | jsonDecodeError : String → PyExc
  | attributeError : String → PyExc
deriving DecidableEq

/-- The match test of `_sample_via_stdin`:
`response.get("type") == "sample_response" and response.get("id") == request_id`. -/
def sampleMatches (kvs : List (String × Json)) (request_id : String) : Bool :=
  (match Json.dictGet kvs "type" with
   | some (Json.str s) => s == "sample_response"
   | _ => false) &&
  (match Json.dictGet kvs "id" with
   | some (Json.str s) => s == request_id
   | _ => false)

/-- The read loop of `_sample_via_stdin` from `sampling.py` (the request was
already emitted; the loop is the claim's subject).  `readline` returning the
empty string (exhausted channel) raises `RuntimeError`; `json.loads` on an
unparseable line raises `JSONDecodeError`; `.get` on a parsed non-object
raises `AttributeError`; a parsed object that does not match the correlation
id is skipped; a match returns `response.get("content", "")`. -/
def sampleViaStdin (request_id : String) : List InLine → Except PyExc Json
  | [] => .error (.runtimeError "stdin closed while waiting for sample response")
  | .bad m :: _ => .error (.jsonDecodeError m)
  | .json j :: rest =>
    match j with
    | .obj kvs =>
      if sampleMatches kvs request_id then .ok (Json.dictGetD kvs "content" (Json.str ""))
      else sampleViaStdin request_id rest
    | _ => .error (.attributeError "get")

def c5Good : InLine := InLine.json (Json.obj
  [("type", Json.str "sample_response"), ("id", Json.str "abc12345"),
   ("content", Json.str "hello")])

/-- C5 counterexample: a line that does not parse as JSON is not silently
skipped — `json.loads` raises and the exchange aborts, even though a
matching response follows on the very next line (which, alone, would have
been returned). -/
theorem sampling_bad_line_counterexample :
    sampleViaStdin "abc12345" [InLine.bad "not json", c5Good] =
      Except.error (PyExc.jsonDecodeError "not json") ∧
    sampleViaStdin "abc12345" [c5Good] = Except.ok (Json.str "hello") :=
  ⟨rfl, rfl⟩

/-- C5 (amended): after emitting the request, the stdin transport skips
JSON-object lines that do not match the correlation id and returns the
`content` field of the first line that does match; a line that fails to
parse as JSON (or parses to a non-object) raises and aborts the exchange
rather than being skipped; and if the channel closes before a match it
fails with the `RuntimeError` transport error. -/
theorem sampling_stdin_contract (request_id : String) :
    (∀ (kvs : List (String × Json)) (rest : List InLine),
      sampleMatches kvs request_id = false →
      sampleViaStdin request_id (InLine.json (Json.obj kvs) :: rest) =
        sampleViaStdin request_id rest) ∧
    (∀ (kvs : List (String × Json)) (rest : List InLine),
      sampleMatches kvs request_id = true →
      sampleViaStdin request_id (InLine.json (Json.obj kvs) :: rest) =
        Except.ok (Json.dictGetD kvs "content" (Json.str ""))) ∧
    sampleViaStdin request_id [] =
      Except.error (PyExc.runtimeError "stdin closed while waiting for sample response") ∧
    (∀ (m : String) (rest : List InLine),
      sampleViaStdin request_id (InLine.bad m :: rest) =
        Except.error (PyExc.jsonDecodeError m)) := by
  refine ⟨?_, ?_, rfl, fun m rest => rfl⟩
  · intro kvs rest hm
    simp [sampleViaStdin, hm]
  · intro kvs rest hm
    simp [sampleViaStdin, hm]

/-- C5 witness: a non-matching object line is skipped and the following
matching line's content is returned. -/
theorem sampling_stdin_contract_witness :
    sampleViaStdin "abc12345" [InLine.json (Json.obj [("type", Json.str "other")]), c5Good] =
      Except.ok (Json.str "hello") := by
  have h := sampling_stdin_contract "abc12345"
  rw [h.1 [("type", Json.str "other")] [c5Good] rfl]
  exact h.2.1 [("type", Json.str "sample_response"), ("id", Json.str "abc12345"),
    ("content", Json.str "hello")] [] rfl

/-- Tool metadata as consulted by `_run_tool` (`meta.get("streaming")`,
`meta.get("session_mode")`). -/
structure ToolMeta where
  streaming : Bool
  session_mode : Bool

/-- What invoking the tool body produced, as seen by the dispatcher: a JSON
value, a one-way generator (creating a Python generator runs none of its
body, so nothing is emitted before a driver drains it), a session
generator, or a raised exception (structured or other). -/
inductive ToolResult (σ : Type) where
  | value : Json → ToolResult σ
  | streamGen : List Evt → ToolResult σ
  | sessionGen : SessionGen σ → ToolResult σ
  | raisesTool : ToolError → ToolResult σ
  | raisesOther : String → ToolResult σ

/-- The error raised when a streaming-declared tool runs without `--stream`
(`_run_tool` lines 265-271). -/
def streamRequiredError : ToolError :=
  ⟨ErrorCode.INVALID_INPUT, "This tool requires --stream flag", some true,
   some "Add --stream to the command", none⟩

/-- The error raised when a session-declared tool runs without `--session`
(`_run_tool` lines 274-280). -/
def sessionRequiredError : ToolError :=
  ⟨ErrorCode.INVALID_INPUT, "This tool requires --session flag", some true,
   some "Add --session to the command", none⟩

/-- The `try` block of `_run_tool` (lines 253-299) after `fn` was called:
mode resolution and rendering, with `except ToolError` / `except Exception`
folded in.  Streaming-declared: without the flag the guard's `ToolError`
envelope is the only line; with it the driver's lines are all the output
(the dispatcher prints nothing after `run_streaming_tool`).  Session:
symmetric, plus the final status object.  Direct: an envelope-shaped dict
is printed unchanged, another dict is success-wrapped, anything else goes
under a `result` key.  The mode/return-type mismatch arms (a declared mode
whose body is not a generator, or a bare generator return) end in the
generic `INTERNAL` handler in Python; no claim exercises them and the
exception text is not tracked. -/
def execPhase {σ : Type} (meta : ToolMeta) (streaming session_mode : Bool)
    (result : ToolResult σ) (stdin : List InLine) (fuel : Nat) : List Json :=
  match result with
  | .raisesTool e => [e.to_response]
  | .raisesOther m => [Response.error "INTERNAL" m false none none]
  | r =>
    if meta.streaming then
      if !streaming then [streamRequiredError.to_response]
      else
        match r with
        | .streamGen events => (run_streaming_tool events).1.map Json.obj
        | _ => [Response.error "INTERNAL" "" false none none]
    else if meta.session_mode then
      if !session_mode then [sessionRequiredError.to_response]
      else
        match r with
        | .sessionGen g =>
          match run_session_tool g stdin fuel with
          | some (es, st) => es.map Json.obj ++ [st]
          | none => []
        | _ => [Response.error "INTERNAL" "" false none none]
    else
      match r with
      | .value (Json.obj kvs) =>
        if (Json.dictGet kvs "status").isSome then [Json.obj kvs]
        else [Response.success (Json.obj kvs)]
      | .value v => [Response.success (Json.obj [("result", v)])]
      | _ => [Response.error "INTERNAL" "" false none none]

/-- The reserved-field view of a validated `ToolInput` instance; `none`
models an attribute the input model does not declare (or set to `None`). -/
structure InputObj where
  preValidateRaises : Option ToolError
  working_dir : Option String
  timeout : Option Int
  dry_run : Bool
  logSafe : List (String × Json)

/-- The observable trace of one `_run_tool` dispatch: the JSON lines
printed, whether a timeout deadline was armed, whether the `finally`
cleanup that releases it ran, whether the tool body was invoked, and
whether the working directory was changed. -/
structure DispatchTrace where
  printed : List Json
  timerInstalled : Bool
  timerCancelled : Bool
  toolInvoked : Bool
  cwdChanged : Bool

/-- The timeout block of `_run_tool` (lines 226-243): `if input_obj.timeout:`
is Python truthiness, so `0` (like `None` or an absent field) skips the
whole check; otherwise a non-positive value raises "timeout must be
positive", a value over 600 the cap error (both recoverable
`INVALID_INPUT`), and an in-range value arms the deadline. -/
def handleTimeout (timeout : Option Int) : Except ToolError (Option Int) :=
  match timeout with
  | none => .ok none
  | some t =>
    if t = 0 then .ok none
    else if t ≤ 0 then
      .error ⟨ErrorCode.INVALID_INPUT, "timeout must be positive", some true, none, none⟩
    else if t > 600 then
      .error ⟨ErrorCode.INVALID_INPUT, "timeout exceeds maximum (600 seconds)",
        some true, none, none⟩
    else .ok (some t)

/-- The error raised by the `SIGALRM` handler installed by `_setup_timeout`
when the deadline fires: `ToolError(ErrorCode.TIMEOUT, "Operation timed
out")`, recoverability from the static table. -/
def timeoutHandlerError : ToolError :=
  ⟨ErrorCode.TIMEOUT, "Operation timed out", none, none, none⟩

/-- A return taken before the `try` around the invocation: the `finally`
cleanup is not reached. -/
def earlyReturn (printed : List Json) (cwd : Bool) : DispatchTrace :=
  { printed := printed, timerInstalled := false, timerCancelled := false,
    toolInvoked := false, cwdChanged := cwd }

/-- `_run_tool` lines 199-306: `pre_validate`, `working_dir`, `timeout` and
`dry_run` handling on the validated input object (in that order), then the
guarded tool execution with its `finally` cleanup.  `isdir` abstracts
`os.path.isdir`; `result` is what `fn(...)` returns or raises.
`timerCancelled` records whether the `finally` (which releases the
deadline) ran; it belongs to the `try` around the invocation, so returns
taken before it — the dry-run return included — never reach it. -/
def runToolDispatch {σ : Type} (isdir : String → Bool) (inputObj : Option InputObj)
    (meta : ToolMeta) (streaming session_mode : Bool) (result : ToolResult σ)
    (stdin : List InLine) (fuel : Nat) : DispatchTrace :=
  match inputObj with
  | none =>
    { printed := execPhase meta streaming session_mode result stdin fuel,
      timerInstalled := false, timerCancelled := true, toolInvoked := true,
      cwdChanged := false }
  | some o =>
    match o.preValidateRaises with
    | some e => earlyReturn [e.to_response] false
    | none =>
      let cwd : Bool :=
        match o.working_dir with
        | some d => (d != "") && isdir d
        | none => false
      let wdFail : Option String :=
        match o.working_dir with
        | some d => if (d != "") && !isdir d then some d else none
        | none => none
      match wdFail with
      | some d =>
        earlyReturn [ToolError.to_response
          ⟨ErrorCode.INVALID_PATH, "Directory not found: " ++ d, some true, none, none⟩] false
      | none =>
        match handleTimeout o.timeout with
        | .error e => earlyReturn [e.to_response] cwd
        | .ok tmr =>
          if o.dry_run then
            { printed := [Response.success (Json.obj
                [("dry_run", Json.bool true), ("would_execute", Json.obj o.logSafe)])],
              timerInstalled := tmr.isSome, timerCancelled := false,
              toolInvoked := false, cwdChanged := cwd }
          else
            { printed := execPhase meta streaming session_mode result stdin fuel,
              timerInstalled := tmr.isSome, timerCancelled := true,
              toolInvoked := true, cwdChanged := cwd }

/-- C3: a tool whose metadata declares streaming, invoked without
`--stream`, prints exactly one line — the recoverable `INVALID_INPUT`
envelope whose suggestion is exactly "Add --stream to the command" — and
emits no stream events; invoked with `--stream`, the produced event
sequence is handed to `run_streaming_tool` and the dispatcher prints
nothing beyond the driver's own lines. -/
theorem streaming_flag_guard {σ : Type} (meta : ToolMeta) (events : List Evt)
    (stdin : List InLine) (fuel : Nat) (session_mode : Bool)
    (hs : meta.streaming = true) :
    execPhase meta false session_mode (ToolResult.streamGen events : ToolResult σ)
        stdin fuel = [streamRequiredError.to_response] ∧
    envStatus streamRequiredError.to_response = some (Json.str "error") ∧
    envErrorField streamRequiredError.to_response "code" = some (Json.str "INVALID_INPUT") ∧
    envErrorField streamRequiredError.to_response "recoverable" = some (Json.bool true) ∧
    envErrorField streamRequiredError.to_response "suggestion" =
      some (Json.str "Add --stream to the command") ∧
    execPhase meta true session_mode (ToolResult.streamGen events : ToolResult σ)
        stdin fuel = (run_streaming_tool events).1.map Json.obj := by
  refine ⟨?_, rfl, rfl, rfl, rfl, ?_⟩
  · simp [execPhase, hs]
  · simp [execPhase, hs, run_streaming_tool]

/-- C3 witness: a concrete streaming-declared tool, without and with the
flag. -/
theorem streaming_flag_guard_witness :
    execPhase ⟨true, false⟩ false false (ToolResult.streamGen [] : ToolResult Unit) [] 0 =
      [streamRequiredError.to_response] :=
  (@streaming_flag_guard Unit ⟨true, false⟩ [] [] 0 false rfl).1

def c6Input : InputObj :=
  { preValidateRaises := none, working_dir := none, timeout := some 0,
    dry_run := false, logSafe := [] }

/-- C6 counterexample: the timeout value 0 is not a positive integer, yet
the dispatcher emits no `INVALID_INPUT` envelope, installs no deadline, and
invokes the tool normally — the `if input_obj.timeout:` guard is falsy at 0
and the whole validation block is skipped. -/
theorem timeout_zero_counterexample :
    handleTimeout (some 0) = Except.ok none ∧
    (runToolDispatch (fun _ => true) (some c6Input) ⟨false, false⟩ false false
        (ToolResult.value (Json.obj [("ok", Json.bool true)]) : ToolResult Unit) [] 0).toolInvoked
      = true ∧
    (runToolDispatch (fun _ => true) (some c6Input) ⟨false, false⟩ false false
        (ToolResult.value (Json.obj [("ok", Json.bool true)]) : ToolResult Unit) [] 0).timerInstalled
      = false ∧
    (runToolDispatch (fun _ => true) (some c6Input) ⟨false, false⟩ false false
        (ToolResult.value (Json.obj [("ok", Json.bool true)]) : ToolResult Unit) [] 0).printed
      = [Response.success (Json.obj [("ok", Json.bool true)])] :=
  ⟨rfl, rfl, rfl, rfl⟩

/-- C6 (amended): a declared timeout of `None` or `0` is treated as unset
(no check, no deadline); a nonzero value that is negative or exceeds 600
seconds makes the dispatcher print a recoverable `INVALID_INPUT` envelope
and return without invoking the tool; a value in `(0, 600]` arms the
deadline with that value, and the installed handler's deadline error is the
non-recoverable `TIMEOUT` envelope. -/
theorem timeout_validation_contract (t : Int) :
    handleTimeout none = Except.ok none ∧
    handleTimeout (some 0) = Except.ok none ∧
    (t ≠ 0 → (t < 0 ∨ t > 600) → ∃ e : ToolError,
      handleTimeout (some t) = Except.error e ∧ e.code = ErrorCode.INVALID_INPUT ∧
      e.recoverable = true) ∧
    (0 < t → t ≤ 600 → handleTimeout (some t) = Except.ok (some t)) ∧
    timeoutHandlerError.code = ErrorCode.TIMEOUT ∧
    timeoutHandlerError.recoverable = false ∧
    envStatus timeoutHandlerError.to_response = some (Json.str "error") ∧
    envErrorField timeoutHandlerError.to_response "recoverable" = some (Json.bool false) ∧
    (∀ {σ : Type} (isdir : String → Bool) (o : InputObj) (meta : ToolMeta)
      (sf gf : Bool) (result : ToolResult σ) (stdin : List InLine) (fuel : Nat)
      (e : ToolError),
      o.preValidateRaises = none → o.working_dir = none →
      handleTimeout o.timeout = Except.error e →
      runToolDispatch isdir (some o) meta sf gf result stdin fuel =
        earlyReturn [e.to_response] false) := by
  refine ⟨rfl, rfl, ?_, ?_, rfl, rfl, rfl, rfl, ?_⟩
  · intro ht hrange
    simp only [handleTimeout]
    rw [if_neg ht]
    rcases hrange with hneg | hbig
    · rw [if_pos (le_of_lt hneg)]
      exact ⟨_, rfl, rfl, rfl⟩
    · have h2 : ¬ t ≤ 0 := by omega
      rw [if_neg h2, if_pos hbig]
      exact ⟨_, rfl, rfl, rfl⟩
  · intro h1 h2
    simp only [handleTimeout]
    rw [if_neg (by omega), if_neg (by omega), if_neg (by omega)]
  · intro σ isdir o meta sf gf result stdin fuel e hpre hwd hto
    simp [runToolDispatch, hpre, hwd, hto, earlyReturn]

/-- C6 witness: an in-range timeout arms the deadline; a negative one is
rejected before the tool runs. -/
theorem timeout_validation_contract_witness :
    handleTimeout (some 30) = Except.ok (some 30) ∧
    runToolDispatch (fun _ => true) (some ⟨none, none, some (-5), false, []⟩) ⟨false, false⟩
        false false (ToolResult.value Json.null : ToolResult Unit) [] 0 =
      earlyReturn [ToolError.to_response
        ⟨ErrorCode.INVALID_INPUT, "timeout must be positive", some true, none, none⟩] false := by
  refine ⟨(timeout_validation_contract 30).2.2.2.1 (by omega) (by omega), ?_⟩
  exact (timeout_validation_contract (-5)).2.2.2.2.2.2.2.2 (fun _ => true)
    ⟨none, none, some (-5), false, []⟩ ⟨false, false⟩ false false
    (ToolResult.value Json.null) [] 0
    ⟨ErrorCode.INVALID_INPUT, "timeout must be positive", some true, none, none⟩ rfl rfl rfl

def c7Input : InputObj :=
  { preValidateRaises := none, working_dir := none, timeout := some 5,
    dry_run := true, logSafe := [("dry", Json.bool true)] }

/-- C7: evaluated at the failing input (declared `timeout = 5` together
with `dry_run = true`), the dispatcher arms the deadline, prints the
dry-run success envelope, and returns without the `finally` cleanup ever
running — the installed deadline is not released on the dry-run early
return (on Windows the leaked timer later force-exits the process; on Unix
the alarm stays pending), contradicting the claim's "released on every
exit path". -/
theorem timeout_leak_on_dry_run :
    (runToolDispatch (fun _ => true) (some c7Input) ⟨false, false⟩ false false
        (ToolResult.value Json.null : ToolResult Unit) [] 0).timerInstalled = true ∧
    (runToolDispatch (fun _ => true) (some c7Input) ⟨false, false⟩ false false
        (ToolResult.value Json.null : ToolResult Unit) [] 0).timerCancelled = false ∧
    (runToolDispatch (fun _ => true) (some c7Input) ⟨false, false⟩ false false
        (ToolResult.value Json.null : ToolResult Unit) [] 0).toolInvoked = false ∧
    (runToolDispatch (fun _ => true) (some c7Input) ⟨false, false⟩ false false
        (ToolResult.value Json.null : ToolResult Unit) [] 0).printed =
      [Response.success (Json.obj [("dry_run", Json.bool true),
        ("would_execute", Json.obj [("dry", Json.bool true)])])] :=
  ⟨rfl, rfl, rfl, rfl⟩

/-- The abstracted outcome of building the declared input model from parsed
data and running `pre_validate` (the pydantic capability at the interface
boundary): success, `ValidationError` with `e.errors()`, a structured
`ToolError`, or another exception. -/
inductive BuildOutcome where
  | ok : BuildOutcome
  | validationError : List Json → BuildOutcome
  | toolError : ErrorCode → String → BuildOutcome
  | otherError : String → BuildOutcome

/-- `AgentCLI._validate_input`: `json.loads`, optional model construction
plus `pre_validate`, normalizing the three distinct failure shapes into
the same `{valid: false, errors: [...]}` shape; a JSON parse failure is a
`ValueError` caught by the generic handler (`{"message": str(e)}`). -/
def validate_input (parse : Except String Json) (model : Option BuildOutcome) : Json :=
  match parse with
  | .error m =>
    Json.obj [("valid", Json.bool false),
      ("errors", Json.arr [Json.obj [("message", Json.str m)]])]
  | .ok _ =>
    match model with
    | none => Json.obj [("valid", Json.bool true)]
    | some .ok => Json.obj [("valid", Json.bool true)]
    | some (.validationError errs) =>
      Json.obj [("valid", Json.bool false), ("errors", Json.arr errs)]
    | some (.toolError c m) =>
      Json.obj [("valid", Json.bool false),
        ("errors", Json.arr [Json.obj [("code", Json.str c.val), ("message", Json.str m)]])]
    | some (.otherError m) =>
      Json.obj [("valid", Json.bool false),
        ("errors", Json.arr [Json.obj [("message", Json.str m)]])]

/-- `_run_tool` with `--validate` present (lines 173-179): the validation
result is printed and the method returns before input parsing,
reserved-field handling and tool invocation. -/
def runToolValidate (parse : Except String Json) (model : Option BuildOutcome) :
    DispatchTrace :=
  { printed := [validate_input parse model], timerInstalled := false,
    timerCancelled := false, toolInvoked := false, cwdChanged := false }

/-- C9: the `--validate` path never invokes the tool body and has no
observable side effect — no invocation, no directory change, no deadline,
and (being a function of the parse result and model outcome alone) the same
`{valid, errors}` output on any two calls with the same input — and every
outcome is either `{valid: true}` or the one normalized
`{valid: false, errors: [...]}` shape, whichever of the three failure
shapes occurred. -/
theorem validate_only_contract (parse : Except String Json) (model : Option BuildOutcome) :
    (runToolValidate parse model).toolInvoked = false ∧
    (runToolValidate parse model).cwdChanged = false ∧
    (runToolValidate parse model).timerInstalled = false ∧
    (runToolValidate parse model).printed = [validate_input parse model] ∧
    (validate_input parse model = Json.obj [("valid", Json.bool true)] ∨
      ∃ errs : List Json, validate_input parse model =
        Json.obj [("valid", Json.bool false), ("errors", Json.arr errs)]) := by
  refine ⟨rfl, rfl, rfl, rfl, ?_⟩
  cases parse with
  | error m => exact Or.inr ⟨[Json.obj [("message", Json.str m)]], rfl⟩
  | ok v =>
    rcases model with _ | b
    · exact Or.inl rfl
    · cases b with
      | ok => exact Or.inl rfl
      | validationError errs => exact Or.inr ⟨errs, rfl⟩
      | toolError c m =>
        exact Or.inr ⟨[Json.obj [("code", Json.str c.val), ("message", Json.str m)]], rfl⟩
      | otherError m => exact Or.inr ⟨[Json.obj [("message", Json.str m)]], rfl⟩
